import Mathlib

/-!
Verification of the candidate-search and best-match ranking engine of
`GpAudioDownloader` (source file `youtube_search.py`, class `YouTubeSearcher`).

The Python code is shallowly embedded: strings are Lean `String`s (lists of
characters; `str.lower` is modelled on the ASCII range, which is the only
range the scoring keywords and the spec scenarios exercise), Python's
substring operator `in` and `str.startswith` are modelled as executable
character-list scans, scores are unbounded `Int`s exactly as Python integers,
and the stable descending sort performed by `list.sort(key=..., reverse=True)`
is modelled by `List.insertionSort` with the relation "left score is at least
right score", which is stable in the same way Python's sort is.
-/

namespace YtSearch

/-- Python `needle` being a prefix of a character list (`str.startswith`). -/
def leadsWith : List Char → List Char → Bool
  | [], _ => true
  | _ :: _, [] => false
  | a :: as, b :: bs => a == b && leadsWith as bs

/-- Python substring test over character lists: some suffix starts with `pat`. -/
def hasSub (pat : List Char) : List Char → Bool
  | [] => leadsWith pat []
  | c :: rest => leadsWith pat (c :: rest) || hasSub pat rest

/-- Python `pat in s` on strings. -/
def pyIn (pat s : String) : Bool := hasSub pat.toList s.toList

/-- Python `s.startswith(pre)`. -/
def startsW (s pre : String) : Bool := leadsWith pre.toList s.toList

/-- Python `s.lower()` (ASCII case folding, as in `Char.toLower`). -/
def pyLower (s : String) : String := ⟨s.toList.map Char.toLower⟩

/-- Python `s.count(c)` for a single character `c`. -/
def countChar (s : String) (c : Char) : Nat := s.toList.count c

/-- A search result as built by `YouTubeSearcher`: the dict
`{'id': ..., 'title': ..., 'url': ...}`. -/
structure Candidate where
  id : String
  title : String
  url : String
deriving DecidableEq, Repr

/-- The `official_keywords` list from `get_best_match`. -/
def officialKeywords : List String :=
  ["official", "music video", "official video", "official music video"]

/-- The `cover_keywords` list from `get_best_match`, in source order. -/
def coverKeywords : List String :=
  ["cover", "covers", "covered by", "covering",
   "remix", "remixed", "remix by",
   "karaoke", "instrumental", "backing track",
   "acoustic version", "acoustic cover",
   "piano version", "guitar cover",
   "live version", "live at", "live from", "concert",
   "tribute", "tribute to",
   "reaction", "reacts to",
   "tutorial", "how to play",
   "cover version", "version by"]

/-- The per-keyword delta of the cover/alt-version loop:
`-2` for keywords in `['live', 'concert']`, `-4` for keywords in
`['cover', 'remix', 'karaoke']`, `-3` otherwise. -/
def coverDelta (kw : String) : Int :=
  if kw ∈ ["live", "concert"] then -2
  else if kw ∈ ["cover", "remix", "karaoke"] then -4
  else -3

/-- The total contribution of the `for keyword in cover_keywords` loop to the
score of an (already lower-cased) result title `rt`: each keyword that occurs
as a substring contributes its `coverDelta` once. -/
def coverPenalty (rt : String) : Int :=
  coverKeywords.foldl (fun acc kw => if pyIn kw rt then acc + coverDelta kw else acc) 0

/-- The score `get_best_match` assigns to one result, given the expected
`artist` and `title` arguments and the result's raw title (the code lowercases
the result title first and compares against `artist.lower()`/`title.lower()`). -/
def scoreTitle (artist title resultTitle : String) : Int :=
  let rt := pyLower resultTitle
  let s1 : Int :=
    if artist ≠ "" && pyIn (pyLower artist) rt then
      (if startsW rt (pyLower artist) then 5 else 3) else 0
  let s2 : Int := if title ≠ "" && pyIn (pyLower title) rt then 4 else 0
  let s3 : Int := if officialKeywords.any (fun w => pyIn w rt) then 4 else 0
  let s4 : Int := if ["vevo", "records"].any (fun w => pyIn w rt) then 2 else 0
  let s5 : Int := if ["lyrics", "lyric video"].any (fun w => pyIn w rt) then 1 else 0
  let s6 : Int := coverPenalty rt
  let s7 : Int := if rt.length > 100 then -1 else 0
  let s8 : Int :=
    if countChar rt '|' + countChar rt '-' + countChar rt '(' > 3 then -1 else 0
  let s9 : Int :=
    if rt.length < 50 && artist ≠ "" && title ≠ ""
        && pyIn (pyLower artist) rt && pyIn (pyLower title) rt then 2 else 0
  s1 + s2 + s3 + s4 + s5 + s6 + s7 + s8 + s9

/-- Score of one candidate. -/
def scoreC (artist title : String) (c : Candidate) : Int :=
  scoreTitle artist title c.title

/-- The ordering used by `scored_results.sort(key=lambda x: x[0], reverse=True)`:
descending by score.  `List.insertionSort` with this relation is a stable
descending sort, like Python's. -/
def scoredRel (a b : Int × Candidate) : Prop := b.1 ≤ a.1

instance : DecidableRel scoredRel := fun a b => inferInstanceAs (Decidable (b.1 ≤ a.1))

/-- Translation of `get_best_match`, parameterised over the candidate list that
`self.search(query, max_results=15)` returned.  Mirrors the source: early
`None` on an empty list, score every candidate, stable-sort descending, then
the two `return` statements (positive top score, then unconditional). -/
def getBestMatch (artist title : String) (results : List Candidate) : Option String :=
  if results.isEmpty then none
  else
    let scored := results.map (fun r => (scoreTitle artist title r.title, r))
    let sorted := List.insertionSort scoredRel scored
    match sorted with
    | (s, r) :: _ => if s > 0 then some r.url else some r.url
    | [] => none

/-- The simplification of `get_best_match` that drops the positive-score
branch and always returns the first URL after the descending sort. -/
def getBestMatchFirst (artist title : String) (results : List Candidate) : Option String :=
  if results.isEmpty then none
  else
    let scored := results.map (fun r => (scoreTitle artist title r.title, r))
    let sorted := List.insertionSort scoredRel scored
    match sorted with
    | (_, r) :: _ => some r.url
    | [] => none

/-- The head of the stable descending sort, computed directly: the earliest
element whose score is maximal. -/
def pickBest : List (Int × Candidate) → Option (Int × Candidate)
  | [] => none
  | x :: xs =>
    match pickBest xs with
    | none => some x
    | some y => if y.1 ≤ x.1 then some x else some y

theorem head_insertionSort_eq_pickBest (l : List (Int × Candidate)) :
    (List.insertionSort scoredRel l).head? = pickBest l := by
  induction l with
  | nil => rfl
  | cons a l ih =>
    simp only [List.insertionSort, pickBest, ← ih]
    cases h : List.insertionSort scoredRel l with
    | nil => simp [List.orderedInsert]
    | cons b t =>
      simp only [List.orderedInsert, List.head?]
      by_cases hr : scoredRel a b
      · rw [if_pos hr]
        simp [scoredRel] at hr
        simp [hr]
      · rw [if_neg hr]
        simp [scoredRel] at hr
        rw [if_neg (by omega)]

theorem pickBest_eq_none (l : List (Int × Candidate)) :
    pickBest l = none ↔ l = [] := by
  cases l with
  | nil => simp [pickBest]
  | cons x xs =>
    simp only [pickBest]
    cases pickBest xs with
    | none => simp
    | some y =>
      constructor
      · intro h
        by_cases hy : y.1 ≤ x.1 <;> simp [hy] at h
      · intro h
        exact absurd h (List.cons_ne_nil x xs)

theorem pickBest_mem {l : List (Int × Candidate)} {x : Int × Candidate}
    (h : pickBest l = some x) : x ∈ l := by
  induction l with
  | nil => simp [pickBest] at h
  | cons a l ih =>
    simp only [pickBest] at h
    cases hp : pickBest l with
    | none =>
      rw [hp] at h
      dsimp only at h
      simp at h
      simp [h]
    | some y =>
      rw [hp] at h
      dsimp only at h
      by_cases hy : y.1 ≤ a.1
      · rw [if_pos hy] at h
        simp at h
        simp [h]
      · rw [if_neg hy] at h
        simp at h
        subst h
        exact List.mem_cons_of_mem a (ih hp)

theorem pickBest_le : ∀ (l : List (Int × Candidate)) (x : Int × Candidate),
    pickBest l = some x → ∀ y ∈ l, y.1 ≤ x.1 := by
  intro l
  induction l with
  | nil => intro x h; simp [pickBest] at h
  | cons a l ih =>
    intro x h y hy
    simp only [pickBest] at h
    cases hp : pickBest l with
    | none =>
      rw [hp] at h
      dsimp only at h
      simp at h
      rcases List.mem_cons.mp hy with h1 | h1
      · subst h1; simp [h]
      · exact absurd ((pickBest_eq_none l).mp hp ▸ h1) (List.not_mem_nil y)
    | some z =>
      rw [hp] at h
      dsimp only at h
      by_cases hz : z.1 ≤ a.1
      · rw [if_pos hz] at h
        simp at h
        subst h
        rcases List.mem_cons.mp hy with h1 | h1
        · subst h1; exact le_refl _
        · exact le_trans (ih z hp y h1) hz
      · rw [if_neg hz] at h
        simp at h
        subst h
        rcases List.mem_cons.mp hy with h1 | h1
        · subst h1; omega
        · exact ih z hp y h1

theorem pickBest_append (l₁ : List (Int × Candidate)) (a : Int × Candidate)
    (l₂ : List (Int × Candidate))
    (h₁ : ∀ y ∈ l₁, y.1 < a.1) (h₂ : ∀ y ∈ l₂, y.1 ≤ a.1) :
    pickBest (l₁ ++ a :: l₂) = some a := by
  induction l₁ with
  | nil =>
    simp only [List.nil_append, pickBest]
    cases hp : pickBest l₂ with
    | none => rfl
    | some y =>
      dsimp only
      rw [if_pos (h₂ y (pickBest_mem hp))]
  | cons b l₁ ih =>
    have hrec : pickBest (l₁ ++ a :: l₂) = some a :=
      ih (fun y hy => h₁ y (List.mem_cons_of_mem b hy))
    simp only [List.cons_append, pickBest, List.append_eq, hrec]
    have hb : b.1 < a.1 := h₁ b (List.mem_cons_self b l₁)
    rw [if_neg (by omega)]

theorem getBestMatch_some (a t : String) (l : List Candidate) (h : l ≠ []) :
    ∃ p : Int × Candidate,
      pickBest (l.map fun r => (scoreTitle a t r.title, r)) = some p ∧
      getBestMatch a t l = some p.2.url := by
  have hne : (l.map fun r => (scoreTitle a t r.title, r)) ≠ [] := by
    simpa using h
  cases hp : pickBest (l.map fun r => (scoreTitle a t r.title, r)) with
  | none => exact absurd ((pickBest_eq_none _).mp hp) hne
  | some p =>
    refine ⟨p, rfl, ?_⟩
    simp only [getBestMatch]
    rw [if_neg (by simpa [List.isEmpty_iff] using h)]
    have hh := head_insertionSort_eq_pickBest (l.map fun r => (scoreTitle a t r.title, r))
    rw [hp] at hh
    cases hs : List.insertionSort scoredRel (l.map fun r => (scoreTitle a t r.title, r)) with
    | nil => rw [hs] at hh; simp at hh
    | cons q tl =>
      rw [hs] at hh
      simp at hh
      subst hh
      obtain ⟨s, c⟩ := q
      dsimp only
      split <;> rfl

/-!
Embedding of `search`, `_search_youtube_scraping` and `_search_invidious`.

The network boundary is abstracted as data: a `ScrapeOutcome` describes what
the primary page fetch produced (a raised request exception, or a status code
together with the result of the `var ytInitialData = ({.*?});` marker
extraction and `json.loads`), and a `MirrorOutcome` describes what one
Invidious mirror produced.  Everything after that boundary — the nested
dictionary navigation, the collection loops with their `break`s, and the
`except` handlers — is translated statement by statement.  Python exceptions
are modelled with `Except PyErr`: `KeyError`/`TypeError` (the classes caught
by the inner handler of `_search_youtube_scraping`) are `PyErr.keyType`,
every other exception (e.g. the `AttributeError` from calling `.get` on a
non-dict) is `PyErr.oth` and only the outer `except Exception` handlers
absorb it.
-/

/-- Parsed JSON values (`json.loads` / `response.json()` output shapes used by
the source: objects, arrays, strings and `None`). -/
inductive Json where
  | null
  | str (s : String)
  | obj (fields : List (String × Json))
  | arr (elems : List Json)

/-- The two classes of Python exception the source's handlers distinguish. -/
inductive PyErr where
  | keyType
  | oth
deriving DecidableEq, Repr

mutual
/-- Python `repr` of a parsed-JSON value (used when an f-string interpolates a
non-string value). -/
def Json.pyRepr : Json → String
  | .null => "None"
  | .str s => "'" ++ s ++ "'"
  | .obj fs => "\x7b" ++ Json.pyReprFields fs ++ "\x7d"
  | .arr es => "[" ++ Json.pyReprList es ++ "]"

/-- Python repr of the fields of a dict, comma separated. -/
def Json.pyReprFields : List (String × Json) → String
  | [] => ""
  | [(k, v)] => "'" ++ k ++ "': " ++ Json.pyRepr v
  | (k, v) :: rest => "'" ++ k ++ "': " ++ Json.pyRepr v ++ ", " ++ Json.pyReprFields rest

/-- Python repr of the elements of a list, comma separated. -/
def Json.pyReprList : List Json → String
  | [] => ""
  | [e] => Json.pyRepr e
  | e :: rest => Json.pyRepr e ++ ", " ++ Json.pyReprList rest
end

/-- Python `str()` as applied by an f-string: strings interpolate as
themselves, other values via `repr`-like rendering. -/
def Json.pyStr : Json → String
  | .str s => s
  | j => j.pyRepr

/-- Python subscript `j[k]` with a string key: a dict yields the value or
raises `KeyError`; a list, string or `None` raises `TypeError`. -/
def Json.idx (j : Json) (k : String) : Except PyErr Json :=
  match j with
  | .obj fs =>
    match fs.find? (fun p => p.1 == k) with
    | some p => .ok p.2
    | none => .error .keyType
  | _ => .error .keyType

/-- Python membership `k in j`: key lookup on a dict, substring test on a
string, element test on a list, `TypeError` on `None`. -/
def Json.hasKey (j : Json) (k : String) : Except PyErr Bool :=
  match j with
  | .obj fs => .ok (fs.any (fun p => p.1 == k))
  | .str s => .ok (pyIn k s)
  | .arr es => .ok (es.any fun e =>
      match e with
      | Json.str s => s == k
      | _ => false)
  | .null => .error .keyType

/-- Python iteration `for x in j`: a list yields its elements, a string its
characters, a dict its keys; `None` raises `TypeError`. -/
def Json.iter (j : Json) : Except PyErr (List Json) :=
  match j with
  | .arr es => .ok es
  | .str s => .ok (s.toList.map fun c => Json.str (String.singleton c))
  | .obj fs => .ok (fs.map fun p => Json.str p.1)
  | .null => .error .keyType

/-- Python `dict.get(k)` (default `None`) on a dict's field list. -/
def dictGet (fs : List (String × Json)) (k : String) : Json :=
  match fs.find? (fun p => p.1 == k) with
  | some p => p.2
  | none => .null

/-- Python `dict.get(k, d)` on a dict's field list. -/
def dictGetD (fs : List (String × Json)) (k : String) (d : Json) : Json :=
  match fs.find? (fun p => p.1 == k) with
  | some p => p.2
  | none => d

/-- Python truthiness of a parsed-JSON value (`if video_id and title:`). -/
def Json.truthy : Json → Bool
  | .null => false
  | .str s => !(s == "")
  | .obj fs => !fs.isEmpty
  | .arr es => !es.isEmpty

/-- The canonical watch-link prefix used by both sources. -/
def watchBase : String := "https://www.youtube.com/watch?v="

/-- The title extraction of `_search_youtube_scraping`:
`title = ''; if 'title' in video and 'runs' in video['title']:
title = ''.join([run['text'] for run in video['title']['runs']])`. -/
def extractTitle (video : Json) : Except PyErr String := do
  let h1 ← video.hasKey "title"
  if h1 then
    let tj ← video.idx "title"
    let h2 ← tj.hasKey "runs"
    if h2 then
      let runsJ ← tj.idx "runs"
      let runs ← runsJ.iter
      let texts ← runs.mapM (fun r => r.idx "text")
      texts.foldlM (fun acc j =>
        match j with
        | Json.str s => Except.ok (acc ++ s)
        | _ => Except.error PyErr.keyType) ""
    else pure ""
  else pure ""

/-- Outcome of one of the collection loops of `_search_youtube_scraping`:
normal completion (or `break`) with the accumulated results, a
`KeyError`/`TypeError` that will be absorbed by the inner handler (which then
`return`s the results accumulated so far), or some other exception that only
the outer handler absorbs (losing the accumulated results). -/
inductive LoopRes where
  | ok (acc : List Candidate)
  | kt (acc : List Candidate)
  | oth
deriving DecidableEq, Repr

/-- The inner `for item in items` loop of `_search_youtube_scraping`,
threading the `results` accumulator; appends a candidate when both the video
id and the joined title are truthy, and `break`s once
`len(results) >= max_results`. -/
def itemsLoop (maxResults : Nat) : List Json → List Candidate → LoopRes
  | [], acc => .ok acc
  | item :: rest, acc =>
    match item.hasKey "videoRenderer" with
    | .error _ => .kt acc
    | .ok false => itemsLoop maxResults rest acc
    | .ok true =>
      match item.idx "videoRenderer" with
      | .error _ => .kt acc
      | .ok video =>
        match video with
        | .obj fs =>
          let vid := dictGet fs "videoId"
          match extractTitle video with
          | .error .keyType => .kt acc
          | .error .oth => .oth
          | .ok title =>
            if vid.truthy && !(title == "") then
              let acc' := acc ++ [⟨vid.pyStr, title, watchBase ++ vid.pyStr⟩]
              if maxResults ≤ acc'.length then .ok acc'
              else itemsLoop maxResults rest acc'
            else itemsLoop maxResults rest acc
        | _ => .oth

/-- The outer `for section in contents` loop of `_search_youtube_scraping`,
including the `if len(results) >= max_results: break` that sits inside the
`'itemSectionRenderer' in section` branch. -/
def sectionsLoop (maxResults : Nat) : List Json → List Candidate → LoopRes
  | [], acc => .ok acc
  | sec :: rest, acc =>
    match sec.hasKey "itemSectionRenderer" with
    | .error _ => .kt acc
    | .ok false => sectionsLoop maxResults rest acc
    | .ok true =>
      match (do
          let isr ← sec.idx "itemSectionRenderer"
          let cj ← isr.idx "contents"
          cj.iter : Except PyErr (List Json)) with
      | .error .keyType => .kt acc
      | .error .oth => .oth
      | .ok items =>
        match itemsLoop maxResults items acc with
        | .kt acc' => .kt acc'
        | .oth => .oth
        | .ok acc' =>
          if maxResults ≤ acc'.length then .ok acc'
          else sectionsLoop maxResults rest acc'

/-- What the primary page fetch produced: a raised request exception, or an
HTTP status plus the outcome of the embedded-JSON marker extraction (`none`
when the regex did not match, `some (.error ())` when `json.loads` failed,
`some (.ok data)` when it parsed). -/
inductive ScrapeOutcome where
  | netError
  | response (status : Nat) (marker : Option (Except Unit Json))

/-- The nested navigation
`data['contents']['twoColumnSearchResultsRenderer']['primaryContents']
['sectionListRenderer']['contents']`, followed by the iteration of the
resulting sections. -/
def scrapeNav (data : Json) : Except PyErr (List Json) := do
  let c1 ← data.idx "contents"
  let c2 ← c1.idx "twoColumnSearchResultsRenderer"
  let c3 ← c2.idx "primaryContents"
  let c4 ← c3.idx "sectionListRenderer"
  let c5 ← c4.idx "contents"
  c5.iter

/-- Translation of `_search_youtube_scraping`: non-200 status, a missing marker, a JSON parse
failure, a failed navigation, or any unexpected exception yield `[]`;
a `KeyError`/`TypeError` raised during collection yields the results
accumulated so far. -/
def searchScraping (o : ScrapeOutcome) (maxResults : Nat) : List Candidate :=
  match o with
  | .netError => []
  | .response status marker =>
    if status ≠ 200 then []
    else
      match marker with
      | none => []
      | some (.error _) => []
      | some (.ok data) =>
        match scrapeNav data with
        | .error _ => []
        | .ok sections =>
          match sectionsLoop maxResults sections [] with
          | .ok acc => acc
          | .kt acc => acc
          | .oth => []

/-- What one Invidious mirror produced: a raised request exception, or an
HTTP status plus the outcome of `response.json()`. -/
inductive MirrorOutcome where
  | netError
  | response (status : Nat) (body : Except Unit Json)

/-- The `for item in data[:max_results]` collection of `_search_invidious`:
keeps entries whose `type` field equals `'video'`, reading `videoId` and
`title` with `''` defaults; `item.get` on a non-dict raises, which the
per-instance handler turns into skipping the whole mirror (`none`). -/
def mirrorItems : List Json → List Candidate → Option (List Candidate)
  | [], acc => some acc
  | item :: rest, acc =>
    match item with
    | .obj fs =>
      if (match dictGet fs "type" with
          | Json.str s => s == "video"
          | _ => false : Bool) then
        mirrorItems rest (acc ++
          [⟨(dictGetD fs "videoId" (Json.str "")).pyStr,
            (dictGetD fs "title" (Json.str "")).pyStr,
            watchBase ++ (dictGetD fs "videoId" (Json.str "")).pyStr⟩])
      else mirrorItems rest acc
    | _ => none

/-- One iteration of the `for instance in invidious_instances` loop of
`_search_invidious`: anything other than an HTTP 200 with a parsed list body
and at least one collected video entry leaves this mirror empty-handed. -/
def mirrorOne (m : MirrorOutcome) (maxResults : Nat) : List Candidate :=
  match m with
  | .netError => []
  | .response status body =>
    if status = 200 then
      match body with
      | .error _ => []
      | .ok data =>
        match data with
        | .arr items =>
          match mirrorItems (items.take maxResults) [] with
          | some results => results
          | none => []
        | _ => []
    else []

/-- Translation of `_search_invidious`: try each mirror in order, returning the first
non-empty result list, `[]` when all mirrors fail. -/
def searchInvidious (ms : List MirrorOutcome) (maxResults : Nat) : List Candidate :=
  match ms with
  | [] => []
  | m :: rest =>
    let r := mirrorOne m maxResults
    if r.isEmpty then searchInvidious rest maxResults else r

/-- Translation of `search`: the primary scraping source first, the mirror chain only when it
produced nothing. -/
def search (o : ScrapeOutcome) (ms : List MirrorOutcome) (maxResults : Nat) :
    List Candidate :=
  let r1 := searchScraping o maxResults
  if r1.isEmpty then searchInvidious ms maxResults else r1

/-- The failure modes of the primary source that occur before any candidate
has been collected: request exception, non-2xx status, absent marker, JSON
parse failure, or navigation failure (shape drift at the nested path). -/
def primaryTopFailure : ScrapeOutcome → Prop
  | .netError => True
  | .response status marker =>
    status ≠ 200 ∨ marker = none ∨ marker = some (.error ()) ∨
      ∃ d, marker = some (.ok d) ∧ scrapeNav d = .error PyErr.keyType

/-- Congruence of the cover-keyword fold: the accumulated penalty depends only
on which keywords occur in the title, not on how often. -/
theorem coverFold_congr (kws : List String) (rt₁ rt₂ : String)
    (h : ∀ kw ∈ kws, pyIn kw rt₁ = pyIn kw rt₂) (acc : Int) :
    kws.foldl (fun acc kw => if pyIn kw rt₁ then acc + coverDelta kw else acc) acc =
      kws.foldl (fun acc kw => if pyIn kw rt₂ then acc + coverDelta kw else acc) acc := by
  induction kws generalizing acc with
  | nil => rfl
  | cons k ks ih =>
    simp only [List.foldl]
    rw [h k (List.mem_cons_self _ _)]
    exact ih (fun kw hkw => h kw (List.mem_cons_of_mem _ hkw)) _

/-- Claim C1: for every expected artist/title and every candidate list returned
by `search`, `get_best_match` returns `none` iff the list is empty, and on a
non-empty list it returns the URL of a member of the list whose score is
maximal (regardless of the sign of that maximal score). -/
theorem claim1_getBestMatch_max (a t : String) (l : List Candidate) :
    (getBestMatch a t l = none ↔ l = []) ∧
    (l ≠ [] → ∃ c, c ∈ l ∧ (∀ y ∈ l, scoreC a t y ≤ scoreC a t c) ∧
      getBestMatch a t l = some c.url) := by
  constructor
  · constructor
    · intro hn
      by_contra hne
      obtain ⟨p, _, hg⟩ := getBestMatch_some a t l hne
      rw [hg] at hn
      exact Option.noConfusion hn
    · intro h; subst h; rfl
  · intro h
    obtain ⟨p, hp, hg⟩ := getBestMatch_some a t l h
    obtain ⟨r, hr, hfr⟩ := List.mem_map.mp (pickBest_mem hp)
    subst hfr
    refine ⟨r, hr, ?_, hg⟩
    intro y hy
    have hle := pickBest_le _ _ hp (scoreTitle a t y.title, y)
      (List.mem_map_of_mem _ hy)
    simpa [scoreC] using hle

/-- Witness for C1: on the empty list the result is `none`; on a concrete
one-element list whose only candidate scores `-8` (title "karaoke cover",
artist and title not matching), the candidate's URL is still returned. -/
theorem claim1_witness :
    getBestMatch "zz" "qq" ([] : List Candidate) = none ∧
    (∃ c, c ∈ [Candidate.mk "i" "karaoke cover" "u"] ∧
      (∀ y ∈ [Candidate.mk "i" "karaoke cover" "u"],
        scoreC "zz" "qq" y ≤ scoreC "zz" "qq" c) ∧
      getBestMatch "zz" "qq" [Candidate.mk "i" "karaoke cover" "u"] = some c.url) :=
  ⟨(claim1_getBestMatch_max "zz" "qq" []).1.mpr rfl,
   (claim1_getBestMatch_max "zz" "qq" [Candidate.mk "i" "karaoke cover" "u"]).2
     (by decide)⟩

/-- Claim C5: the sort is a stable descending sort, so when several candidates
attain the maximal score the one earliest in the search-provider order is
selected: if every candidate before `c` scores strictly less and every
candidate after `c` scores at most `c`'s score (ties allowed), then
`get_best_match` returns `c`'s URL. -/
theorem claim5_stable_tie (a t : String) (l₁ l₂ : List Candidate) (c : Candidate)
    (h₁ : ∀ y ∈ l₁, scoreC a t y < scoreC a t c)
    (h₂ : ∀ y ∈ l₂, scoreC a t y ≤ scoreC a t c) :
    getBestMatch a t (l₁ ++ c :: l₂) = some c.url := by
  have hne : l₁ ++ c :: l₂ ≠ [] := by simp
  obtain ⟨p, hp, hg⟩ := getBestMatch_some a t _ hne
  have hmap : (l₁ ++ c :: l₂).map (fun r => (scoreTitle a t r.title, r)) =
      (l₁.map fun r => (scoreTitle a t r.title, r)) ++
        (scoreTitle a t c.title, c) ::
        (l₂.map fun r => (scoreTitle a t r.title, r)) := by
    simp
  rw [hmap] at hp
  rw [pickBest_append _ _ _ ?_ ?_] at hp
  · have hpc : p = (scoreTitle a t c.title, c) := by
      exact (Option.some.injEq _ _ ▸ hp).symm
    rw [hpc] at hg
    exact hg
  · intro y hy
    obtain ⟨r, hr, hfr⟩ := List.mem_map.mp hy
    subst hfr
    simpa [scoreC] using h₁ r hr
  · intro y hy
    obtain ⟨r, hr, hfr⟩ := List.mem_map.mp hy
    subst hfr
    simpa [scoreC] using h₂ r hr

/-- Witness for C5: two candidates with identical titles (hence identical
scores); the earlier one's URL is returned. -/
theorem claim5_witness :
    getBestMatch "x" "y"
      ([] ++ Candidate.mk "1" "same song" "u1" :: [Candidate.mk "2" "same song" "u2"]) =
      some "u1" :=
  claim5_stable_tie "x" "y" [] [Candidate.mk "2" "same song" "u2"]
    (Candidate.mk "1" "same song" "u1") (by decide) (by decide)

/-- Claim C2 counterexample: `'live'` on its own is not in `cover_keywords`,
so a title containing the bare substring `"live"` (and no listed keyword)
receives no penalty at all from the cover/alt-version loop — the loop's
contribution is `0`, not `-2`. -/
theorem claim2_cex :
    pyIn "live" (pyLower "Metallica Live") = true ∧
    coverPenalty (pyLower "Metallica Live") = 0 ∧ ((0 : Int) ≠ -2) := by decide

/-- Claim C2 amended: the branch assigning `-2` tests the keyword against
`['live', 'concert']`, but the keyword list itself contains only `'concert'`
of these two; `'live'` alone never matches, and the live-related keywords that
are listed (`'live version'`, `'live at'`, `'live from'`) each contribute `-3`.
`'concert'` does contribute `-2`. -/
theorem claim2_amended :
    "live" ∉ coverKeywords ∧ "concert" ∈ coverKeywords ∧
    coverDelta "concert" = -2 ∧
    coverDelta "live version" = -3 ∧ coverDelta "live at" = -3 ∧
    coverDelta "live from" = -3 ∧
    coverPenalty "metallica live" = 0 ∧
    coverPenalty "metallica concert" = -2 := by decide

/-- Claim C3 counterexample: in the fixed scenario the third (live) candidate's
score is `8`, not `5`: artist at start gives `+5` (not `+3`), `'live at'`
gives `-3` (not `-2` — bare `'live'` is not a keyword), and the short-title
bonus adds `+2`. -/
theorem claim3_cex :
    scoreTitle "Metallica" "Nothing Else Matters"
      "Metallica Nothing Else Matters Live at Moscow" = 8 ∧ ((8 : Int) ≠ 5) := by decide

/-- Claim C3 amended: in the fixed scenario the first candidate scores exactly
`13` (artist-at-start `+5`, title `+4`, official `+4`) and is selected by
`get_best_match`; the cover candidate scores `-3` and the live candidate
scores `8` (artist-at-start `+5`, title `+4`, `'live at'` `-3`, short-title
bonus `+2`). -/
theorem claim3_amended :
    getBestMatch "Metallica" "Nothing Else Matters"
      [Candidate.mk "a" "Metallica - Nothing Else Matters (Official Music Video)" "u1",
       Candidate.mk "b" "Nothing Else Matters acoustic cover" "u2",
       Candidate.mk "c" "Metallica Nothing Else Matters Live at Moscow" "u3"] =
      some "u1" ∧
    scoreTitle "Metallica" "Nothing Else Matters"
      "Metallica - Nothing Else Matters (Official Music Video)" = 13 ∧
    scoreTitle "Metallica" "Nothing Else Matters"
      "Nothing Else Matters acoustic cover" = -3 ∧
    scoreTitle "Metallica" "Nothing Else Matters"
      "Metallica Nothing Else Matters Live at Moscow" = 8 := by decide

/-- Claim C4 counterexample: the loop tests each keyword for presence, not per
occurrence: a title containing `"cover"` twice is penalised `-4` once, the
same as a title containing it once — not `-8`. -/
theorem claim4_cex :
    pyIn "cover" "cover cover" = true ∧
    coverPenalty "cover" = -4 ∧ coverPenalty "cover cover" = -4 ∧
    coverPenalty "cover cover" ≠ -8 := by decide

/-- Claim C4 amended: each matched keyword's penalty is applied once per
keyword (presence-based substring match, independent of the number of
occurrences: the penalty depends only on which keywords match), and distinct
matched keywords accumulate their penalties (e.g. `'karaoke'` `-4` plus
`'instrumental'` `-3` gives `-7`). -/
theorem claim4_amended :
    (∀ rt₁ rt₂ : String, (∀ kw ∈ coverKeywords, pyIn kw rt₁ = pyIn kw rt₂) →
      coverPenalty rt₁ = coverPenalty rt₂) ∧
    coverPenalty "karaoke instrumental" = -7 := by
  constructor
  · intro rt₁ rt₂ h
    exact coverFold_congr coverKeywords rt₁ rt₂ h 0
  · decide

/-- Witness for C4: the presence-invariance applied at a concrete pair of
titles, one containing `"cover"` once and one containing it twice. -/
theorem claim4_witness :
    coverPenalty "cover" = coverPenalty "cover cover" :=
  claim4_amended.1 "cover" "cover cover" (by decide)

/-- Claim C10: the positive-score branch of `get_best_match` is redundant —
the function agrees everywhere with the simpler function that returns the
first URL after the stable descending sort. -/
theorem claim10_positive_branch_redundant (a t : String) (l : List Candidate) :
    getBestMatch a t l = getBestMatchFirst a t l := by
  simp only [getBestMatch, getBestMatchFirst]
  by_cases h : l.isEmpty
  · rw [if_pos h, if_pos h]
  · rw [if_neg h, if_neg h]
    cases List.insertionSort scoredRel (l.map fun r => (scoreTitle a t r.title, r)) with
    | nil => rfl
    | cons q tl =>
      obtain ⟨s, c⟩ := q
      dsimp only
      split <;> rfl

/-- The candidate list visible to the source's `return results` statements:
results accumulated at normal completion or at an absorbed
`KeyError`/`TypeError`; an unexpected exception reaches the outer handler,
which returns `[]`. -/
def LoopRes.list : LoopRes → List Candidate
  | .ok acc => acc
  | .kt acc => acc
  | .oth => []

theorem searchInvidious_all_empty (n : Nat) (ms : List MirrorOutcome)
    (h : ∀ m ∈ ms, mirrorOne m n = []) : searchInvidious ms n = [] := by
  induction ms with
  | nil => rfl
  | cons m rest ih =>
    simp only [searchInvidious]
    rw [h m (List.mem_cons_self _ _)]
    exact ih (fun m' hm' => h m' (List.mem_cons_of_mem _ hm'))

theorem primaryTopFailure_empty (o : ScrapeOutcome) (n : Nat)
    (h : primaryTopFailure o) : searchScraping o n = [] := by
  cases o with
  | netError => rfl
  | response status marker =>
    simp only [primaryTopFailure] at h
    simp only [searchScraping]
    by_cases hs : status ≠ 200
    · rw [if_pos hs]
    · rw [if_neg hs]
      rcases h with h | h | h | ⟨d, hd, hnav⟩
      · exact absurd h hs
      · rw [h]
      · rw [h]
      · rw [hd]
        dsimp only
        rw [hnav]

theorem searchInvidious_skip (n : Nat) (ms₁ ms₂ : List MirrorOutcome)
    (h : ∀ m ∈ ms₁, mirrorOne m n = []) :
    searchInvidious (ms₁ ++ ms₂) n = searchInvidious ms₂ n := by
  induction ms₁ with
  | nil => rfl
  | cons m rest ih =>
    simp only [List.cons_append, searchInvidious]
    rw [h m (List.mem_cons_self _ _)]
    exact ih (fun m' hm' => h m' (List.mem_cons_of_mem _ hm'))

theorem mirrorOne_ne_nil_status (m : MirrorOutcome) (n : Nat)
    (h : mirrorOne m n ≠ []) : ∃ body, m = MirrorOutcome.response 200 body := by
  cases m with
  | netError => exact absurd rfl h
  | response status body =>
    by_cases hs : status = 200
    · subst hs; exact ⟨body, rfl⟩
    · exact absurd (by simp [mirrorOne, hs]) h

/-- A primary page whose embedded JSON contains one well-formed video entry
followed by a malformed (`null`) item: the shape drift occurs after one
candidate has already been collected. -/
def driftData : Json :=
  Json.obj [("contents", Json.obj [("twoColumnSearchResultsRenderer",
    Json.obj [("primaryContents", Json.obj [("sectionListRenderer",
      Json.obj [("contents", Json.arr [Json.obj [("itemSectionRenderer",
        Json.obj [("contents", Json.arr [
          Json.obj [("videoRenderer", Json.obj [("videoId", Json.str "abc"),
            ("title", Json.obj [("runs",
              Json.arr [Json.obj [("text", Json.str "Song")]])])])],
          Json.null])])]])])])])])]

/-- Claim C6 counterexample: a nested-shape drift hit after a candidate has
been collected (the `null` item raises `TypeError`, absorbed by the inner
handler) makes `search` return the partial, non-empty candidate list — the
internal failure is absorbed, but not reported as an empty list. -/
theorem claim6_cex :
    Json.hasKey Json.null "videoRenderer" = Except.error PyErr.keyType ∧
    search (ScrapeOutcome.response 200 (some (Except.ok driftData))) [] 15 =
      [Candidate.mk "abc" "Song" "https://www.youtube.com/watch?v=abc"] ∧
    [Candidate.mk "abc" "Song" "https://www.youtube.com/watch?v=abc"] ≠
      ([] : List Candidate) :=
  ⟨rfl, by decide, by decide⟩

/-- Claim C6 amended: `search` is a total function (never an exception), and
every failure mode occurring before any candidate is collected — request
error, non-2xx status, absent embedded-JSON marker, JSON parse failure,
nested-path drift at the top of the structure — combined with all mirrors
failing yields the empty candidate list; a shape drift that strikes after
some candidates were already collected instead yields exactly those
candidates. -/
theorem claim6_amended (o : ScrapeOutcome) (ms : List MirrorOutcome) (n : Nat)
    (h₁ : primaryTopFailure o) (h₂ : ∀ m ∈ ms, mirrorOne m n = []) :
    searchScraping o n = [] ∧ search o ms n = [] := by
  have he := primaryTopFailure_empty o n h₁
  refine ⟨he, ?_⟩
  simp only [search, he]
  exact searchInvidious_all_empty n ms h₂

/-- Witness for the amended C6: a request failure on the primary page and a
single failing mirror yield the empty list. -/
theorem claim6_witness :
    searchScraping ScrapeOutcome.netError 5 = [] ∧
    search ScrapeOutcome.netError [MirrorOutcome.netError] 5 = [] :=
  claim6_amended ScrapeOutcome.netError [MirrorOutcome.netError] 5 trivial
    (by decide)

/-- Claim C7: ordered fallback chain, first non-empty result set wins — when
the primary scraping source yields candidates they are returned unchanged;
when it yields nothing, the mirrors are consulted in list order, every mirror
producing an empty result is skipped, and the first mirror producing a
non-empty result (necessarily an HTTP-200 response) supplies the answer. -/
theorem claim7_fallback (o : ScrapeOutcome) (ms : List MirrorOutcome) (n : Nat) :
    (searchScraping o n ≠ [] → search o ms n = searchScraping o n) ∧
    (searchScraping o n = [] →
      ∀ ms₁ m ms₂, ms = ms₁ ++ m :: ms₂ →
        (∀ m' ∈ ms₁, mirrorOne m' n = []) →
        mirrorOne m n ≠ [] →
        search o ms n = mirrorOne m n ∧
        ∃ body, m = MirrorOutcome.response 200 body) := by
  constructor
  · intro h
    simp only [search]
    rw [if_neg (by simpa [List.isEmpty_iff] using h)]
  · intro he ms₁ m ms₂ hms hskip hne
    subst hms
    refine ⟨?_, mirrorOne_ne_nil_status m n hne⟩
    simp only [search, he]
    rw [List.isEmpty_nil, if_pos rfl, searchInvidious_skip n ms₁ _ hskip]
    simp only [searchInvidious]
    rw [if_neg (by simpa [List.isEmpty_iff] using hne)]

/-- An HTTP-200 mirror response with one well-typed video entry. -/
def goodMirror : MirrorOutcome :=
  MirrorOutcome.response 200 (Except.ok (Json.arr [Json.obj
    [("type", Json.str "video"), ("videoId", Json.str "zz"),
     ("title", Json.str "TT")]]))

/-- Witness for C7: primary request fails, the first mirror fails, the second
succeeds and supplies the answer. -/
theorem claim7_witness :
    search ScrapeOutcome.netError [MirrorOutcome.netError, goodMirror] 5 =
      mirrorOne goodMirror 5 ∧
    ∃ body, goodMirror = MirrorOutcome.response 200 body :=
  (claim7_fallback ScrapeOutcome.netError [MirrorOutcome.netError, goodMirror] 5).2
    (by decide) [MirrorOutcome.netError] goodMirror [] rfl (by decide) (by decide)

theorem itemsLoop_inv (n : Nat) : ∀ (items : List Json) (acc : List Candidate),
    (∀ c ∈ acc, c.url = watchBase ++ c.id) → acc.length < n →
    (∀ c ∈ (itemsLoop n items acc).list, c.url = watchBase ++ c.id) ∧
    (itemsLoop n items acc).list.length ≤ n := by
  intro items acc
  induction items, acc using itemsLoop.induct n with
  | case1 acc =>
    intro hacc hlen
    exact ⟨hacc, le_of_lt hlen⟩
  | case2 item rest acc a h1 =>
    intro hacc hlen
    simp only [itemsLoop, h1]
    exact ⟨hacc, le_of_lt hlen⟩
  | case3 item rest acc h1 ih =>
    intro hacc hlen
    simp only [itemsLoop, h1]
    exact ih hacc hlen
  | case4 item rest acc h1 a h2 =>
    intro hacc hlen
    simp only [itemsLoop, h1, h2]
    exact ⟨hacc, le_of_lt hlen⟩
  | case5 item rest acc h1 fs h2 h3 =>
    intro hacc hlen
    simp only [itemsLoop, h1, h2, h3]
    exact ⟨hacc, le_of_lt hlen⟩
  | case6 item rest acc h1 fs h2 h3 =>
    intro hacc hlen
    simp only [itemsLoop, h1, h2, h3]
    exact ⟨by intro c hc; simp [LoopRes.list] at hc, by simp [LoopRes.list]⟩
  | case7 item rest acc h1 fs vid title hcond acc2 hbrk hidx hext =>
    intro hacc hlen
    simp only [itemsLoop, h1, hidx, hext]
    have hcond2 : ((dictGet fs "videoId").truthy && !(title == "")) = true := hcond
    have hbrk2 : n ≤ (acc ++ [Candidate.mk (dictGet fs "videoId").pyStr title
        (watchBase ++ (dictGet fs "videoId").pyStr)]).length := hbrk
    rw [if_pos hcond2, if_pos hbrk2]
    refine ⟨?_, ?_⟩
    · intro c hc
      rcases List.mem_append.mp hc with hc | hc
      · exact hacc c hc
      · rw [List.mem_singleton.mp hc]
    · simp only [LoopRes.list, List.length_append, List.length_singleton]
      omega
  | case8 item rest acc h1 fs vid title hcond acc2 hbrk hidx hext ih =>
    intro hacc hlen
    simp only [itemsLoop, h1, hidx, hext]
    have hcond2 : ((dictGet fs "videoId").truthy && !(title == "")) = true := hcond
    have hbrk2 : ¬ n ≤ (acc ++ [Candidate.mk (dictGet fs "videoId").pyStr title
        (watchBase ++ (dictGet fs "videoId").pyStr)]).length := hbrk
    rw [if_pos hcond2, if_neg hbrk2]
    refine ih ?_ ?_
    · intro c hc
      rcases List.mem_append.mp hc with hc | hc
      · exact hacc c hc
      · rw [List.mem_singleton.mp hc]
    · simp only [List.length_append, List.length_singleton] at hbrk2 ⊢
      omega
  | case9 item rest acc h1 fs vid title hcond hidx hext ih =>
    intro hacc hlen
    simp only [itemsLoop, h1, hidx, hext]
    have hcond2 : ¬ ((dictGet fs "videoId").truthy && !(title == "")) = true := hcond
    rw [if_neg hcond2]
    exact ih hacc hlen
  | case10 item rest acc h1 video hidx hno =>
    intro hacc hlen
    cases video with
    | obj fs => exact (hno fs rfl).elim
    | null =>
      simp only [itemsLoop, h1, hidx]
      exact ⟨by intro c hc; simp [LoopRes.list] at hc, by simp [LoopRes.list]⟩
    | str s =>
      simp only [itemsLoop, h1, hidx]
      exact ⟨by intro c hc; simp [LoopRes.list] at hc, by simp [LoopRes.list]⟩
    | arr es =>
      simp only [itemsLoop, h1, hidx]
      exact ⟨by intro c hc; simp [LoopRes.list] at hc, by simp [LoopRes.list]⟩

theorem sectionsLoop_inv (n : Nat) : ∀ (secs : List Json) (acc : List Candidate),
    (∀ c ∈ acc, c.url = watchBase ++ c.id) → acc.length < n →
    (∀ c ∈ (sectionsLoop n secs acc).list, c.url = watchBase ++ c.id) ∧
    (sectionsLoop n secs acc).list.length ≤ n := by
  intro secs acc
  induction secs, acc using sectionsLoop.induct n with
  | case1 acc =>
    intro hacc hlen
    exact ⟨hacc, le_of_lt hlen⟩
  | case2 item rest acc a h1 =>
    intro hacc hlen
    simp only [sectionsLoop, h1]
    exact ⟨hacc, le_of_lt hlen⟩
  | case3 item rest acc h1 ih =>
    intro hacc hlen
    simp only [sectionsLoop, h1]
    exact ih hacc hlen
  | case4 item rest acc h1 h2 =>
    intro hacc hlen
    simp only [sectionsLoop, h1, h2]
    exact ⟨hacc, le_of_lt hlen⟩
  | case5 item rest acc h1 h2 =>
    intro hacc hlen
    simp only [sectionsLoop, h1, h2]
    exact ⟨by intro c hc; simp [LoopRes.list] at hc, by simp [LoopRes.list]⟩
  | case6 item rest acc h1 items h2 acc' h3 =>
    intro hacc hlen
    simp only [sectionsLoop, h1, h2, h3]
    have hinv := itemsLoop_inv n items acc hacc hlen
    rw [h3] at hinv
    exact hinv
  | case7 item rest acc h1 items h2 h3 =>
    intro hacc hlen
    simp only [sectionsLoop, h1, h2, h3]
    exact ⟨by intro c hc; simp [LoopRes.list] at hc, by simp [LoopRes.list]⟩
  | case8 item rest acc h1 items h2 acc' h3 h4 =>
    intro hacc hlen
    simp only [sectionsLoop, h1, h2, h3]
    rw [if_pos h4]
    have hinv := itemsLoop_inv n items acc hacc hlen
    rw [h3] at hinv
    exact hinv
  | case9 item rest acc h1 items h2 acc' h3 h4 ih =>
    intro hacc hlen
    simp only [sectionsLoop, h1, h2, h3]
    rw [if_neg h4]
    have hinv := itemsLoop_inv n items acc hacc hlen
    rw [h3] at hinv
    exact ih hinv.1 (by omega)

theorem searchScraping_inv (o : ScrapeOutcome) (n : Nat) (h : 1 ≤ n) :
    (∀ c ∈ searchScraping o n, c.url = watchBase ++ c.id) ∧
    (searchScraping o n).length ≤ n := by
  have hbase : ∀ c ∈ ([] : List Candidate), c.url = watchBase ++ c.id := by
    intro c hc
    simp at hc
  cases o with
  | netError => exact ⟨hbase, by simp [searchScraping]⟩
  | response status marker =>
    simp only [searchScraping]
    by_cases hs : status ≠ 200
    · rw [if_pos hs]
      exact ⟨hbase, by simp⟩
    · rw [if_neg hs]
      cases marker with
      | none => exact ⟨hbase, by simp⟩
      | some res =>
        cases res with
        | error u => exact ⟨hbase, by simp⟩
        | ok data =>
          cases hnav : scrapeNav data with
          | error e =>
            simp only [hnav]
            exact ⟨hbase, by simp⟩
          | ok sections =>
            simp only [hnav]
            have hinv := sectionsLoop_inv n sections [] hbase
              (by simp only [List.length_nil]; omega)
            cases h3 : sectionsLoop n sections [] with
            | ok acc =>
              simp only [h3]
              rw [h3] at hinv
              exact hinv
            | kt acc =>
              simp only [h3]
              rw [h3] at hinv
              exact hinv
            | oth =>
              simp only [h3]
              exact ⟨hbase, by simp⟩

theorem mirrorItems_inv : ∀ (items : List Json) (acc : List Candidate),
    (∀ c ∈ acc, c.url = watchBase ++ c.id) →
    ∀ r, mirrorItems items acc = some r →
    (∀ c ∈ r, c.url = watchBase ++ c.id) ∧ r.length ≤ acc.length + items.length := by
  intro items acc
  induction items, acc using mirrorItems.induct with
  | case1 acc =>
    intro hacc r hr
    simp only [mirrorItems, Option.some.injEq] at hr
    subst hr
    exact ⟨hacc, by simp⟩
  | case2 rest acc fs h1 ih =>
    intro hacc r hr
    simp only [mirrorItems] at hr
    rw [if_pos h1] at hr
    have hacc' : ∀ c ∈ acc ++
        [Candidate.mk (dictGetD fs "videoId" (Json.str "")).pyStr
          (dictGetD fs "title" (Json.str "")).pyStr
          (watchBase ++ (dictGetD fs "videoId" (Json.str "")).pyStr)],
        c.url = watchBase ++ c.id := by
      intro c hc
      rcases List.mem_append.mp hc with hc | hc
      · exact hacc c hc
      · rw [List.mem_singleton.mp hc]
    have hres := ih hacc' r hr
    refine ⟨hres.1, ?_⟩
    have h2 := hres.2
    simp only [List.length_append, List.length_singleton, List.length_cons,
      List.length_nil] at h2 ⊢
    omega
  | case3 rest acc fs h1 ih =>
    intro hacc r hr
    simp only [mirrorItems] at hr
    rw [if_neg h1] at hr
    have hres := ih hacc r hr
    refine ⟨hres.1, ?_⟩
    have h2 := hres.2
    simp only [List.length_cons]
    omega
  | case4 item rest acc hno =>
    intro hacc r hr
    cases item with
    | obj fs => exact (hno fs rfl).elim
    | null => simp [mirrorItems] at hr
    | str s => simp [mirrorItems] at hr
    | arr es => simp [mirrorItems] at hr

theorem mirrorOne_inv (m : MirrorOutcome) (n : Nat) :
    (∀ c ∈ mirrorOne m n, c.url = watchBase ++ c.id) ∧
    (mirrorOne m n).length ≤ n := by
  have hbase : ∀ c ∈ ([] : List Candidate), c.url = watchBase ++ c.id := by
    intro c hc
    simp at hc
  cases m with
  | netError => exact ⟨hbase, by simp [mirrorOne]⟩
  | response status body =>
    simp only [mirrorOne]
    by_cases hs : status = 200
    · rw [if_pos hs]
      cases body with
      | error u => exact ⟨hbase, by simp⟩
      | ok data =>
        cases data with
        | null => exact ⟨hbase, by simp⟩
        | str s => exact ⟨hbase, by simp⟩
        | obj fs => exact ⟨hbase, by simp⟩
        | arr items =>
          cases hr : mirrorItems (items.take n) [] with
          | none =>
            simp only [hr]
            exact ⟨hbase, by simp⟩
          | some r =>
            simp only [hr]
            have hres := mirrorItems_inv (items.take n) [] hbase r hr
            refine ⟨hres.1, ?_⟩
            have h2 := hres.2
            have h3 : (items.take n).length ≤ n := by
              simp [List.length_take]
            simp only [List.length_nil, Nat.zero_add] at h2
            omega
    · rw [if_neg hs]
      exact ⟨hbase, by simp⟩

theorem searchInvidious_inv (ms : List MirrorOutcome) (n : Nat) :
    (∀ c ∈ searchInvidious ms n, c.url = watchBase ++ c.id) ∧
    (searchInvidious ms n).length ≤ n := by
  induction ms with
  | nil => exact ⟨by intro c hc; simp [searchInvidious] at hc, by simp [searchInvidious]⟩
  | cons m rest ih =>
    simp only [searchInvidious]
    by_cases h : (mirrorOne m n).isEmpty
    · rw [if_pos h]
      exact ih
    · rw [if_neg h]
      exact mirrorOne_inv m n

/-- Claim C8 amended: for every backend behaviour and every
`maxResults ≥ 1`, every candidate returned by `search` (from either source)
has `url` equal to the canonical watch link followed by its `id`, and the
list holds at most `maxResults` candidates.  (For `maxResults = 0` the
primary source appends one candidate before its `break` check fires, so the
bound fails there — see the counterexample.) -/
theorem claim8_amended (o : ScrapeOutcome) (ms : List MirrorOutcome) (n : Nat)
    (h : 1 ≤ n) :
    (∀ c ∈ search o ms n, c.url = watchBase ++ c.id) ∧
    (search o ms n).length ≤ n := by
  simp only [search]
  by_cases he : (searchScraping o n).isEmpty
  · rw [if_pos he]
    exact searchInvidious_inv ms n
  · rw [if_neg he]
    exact searchScraping_inv o n h

/-- A primary page whose embedded JSON contains exactly one valid video. -/
def overshootData : Json :=
  Json.obj [("contents", Json.obj [("twoColumnSearchResultsRenderer",
    Json.obj [("primaryContents", Json.obj [("sectionListRenderer",
      Json.obj [("contents", Json.arr [Json.obj [("itemSectionRenderer",
        Json.obj [("contents", Json.arr [
          Json.obj [("videoRenderer", Json.obj [("videoId", Json.str "abc"),
            ("title", Json.obj [("runs",
              Json.arr [Json.obj [("text", Json.str "T")]])])])]])])]])])])])])]

/-- Claim C8 counterexample: with `maxResults = 0` the primary source appends
a candidate before evaluating `len(results) >= max_results`, so `search`
returns one candidate — more than `maxResults`. -/
theorem claim8_cex :
    search (ScrapeOutcome.response 200 (some (Except.ok overshootData))) [] 0 =
      [Candidate.mk "abc" "T" "https://www.youtube.com/watch?v=abc"] ∧
    ¬ ((search (ScrapeOutcome.response 200 (some (Except.ok overshootData))) [] 0).length
        ≤ 0) := by decide

/-- Witness for the amended C8 at `maxResults = 1` on the one-video page. -/
theorem claim8_witness :
    (∀ c ∈ search (ScrapeOutcome.response 200 (some (Except.ok overshootData))) [] 1,
      c.url = watchBase ++ c.id) ∧
    (search (ScrapeOutcome.response 200 (some (Except.ok overshootData))) [] 1).length
      ≤ 1 :=
  claim8_amended (ScrapeOutcome.response 200 (some (Except.ok overshootData))) [] 1
    (by decide)

/-- An HTTP-200 mirror response with a single entry typed `video` that has
neither a `videoId` nor a `title` field. -/
def bareMirror : MirrorOutcome :=
  MirrorOutcome.response 200 (Except.ok (Json.arr [Json.obj [("type", Json.str "video")]]))

/-- Claim C9: the mirror fallback does not enforce the primary source's
non-empty id/title requirement — on a 200 response whose only video entry has
no `videoId` or `title` field, `search` returns a candidate whose id and
title are empty and whose URL is the bare watch link with no identifier. -/
theorem claim9_bare_candidate :
    search ScrapeOutcome.netError [bareMirror] 5 =
      [Candidate.mk "" "" "https://www.youtube.com/watch?v="] ∧
    "https://www.youtube.com/watch?v=" = watchBase ++ "" := by decide

end YtSearch
